import Mathlib

/-!
# Verification of the LinkedIn sourcing pipeline scoring core

Shallow embedding of `linkedin_sourcing_pipeline/agents/scoring.py` and of
the orchestration in `linkedin_sourcing_pipeline/pipeline.py`.

Numbers are modelled by `ℚ` (exact arithmetic); Python `round(x, 2)` is
modelled by `round2` below.  Python dictionaries for candidates and jobs are
modelled by structures whose fields are the fields the code reads; an absent
key is modelled by the empty string / empty list / `false`, which is how
`dict.get` with the default used at each call site behaves.
-/

namespace LinkedinSourcing

/-! ## String helpers, modelling the Python string operations used -/

/-- Character-level whitespace test: the exact set of characters Python
`str.isspace()` accepts, which is the separator set of `str.split()` with
no argument, of `str.strip()`, and of the surrounding-whitespace stripping
of `float()`. -/
def isSpaceChar (c : Char) : Bool :=
  let n := c.toNat
  (9 ≤ n && n ≤ 13) || (28 ≤ n && n ≤ 31) || n == 32 || n == 133 || n == 160 ||
    n == 5760 || (8192 ≤ n && n ≤ 8202) || n == 8232 || n == 8233 || n == 8239 ||
    n == 8287 || n == 12288

/-- `listStartsWith pat l` is true when `pat` is an initial segment of `l`. -/
def listStartsWith : List Char → List Char → Bool
  | [], _ => true
  | _ :: _, [] => false
  | a :: as, b :: bs => a == b && listStartsWith as bs

/-- `listOccurs pat l` is true when `pat` occurs contiguously inside `l`. -/
def listOccurs (pat : List Char) : List Char → Bool
  | [] => pat.isEmpty
  | c :: t => listStartsWith pat (c :: t) || listOccurs pat t

/-- `strOccursIn pat hay` models the Python expression `pat in hay` on
strings (contiguous substring containment). -/
def strOccursIn (pat hay : String) : Bool :=
  listOccurs pat.data hay.data

/-- Models Python `str.lower()` (the inputs the code matches against are
ASCII, where `Char.toLower` agrees with Python). -/
def lowerStr (s : String) : String :=
  ⟨s.data.map Char.toLower⟩

/-- Models Python `str.strip()` with no argument: remove leading and
trailing whitespace. -/
def stripStr (s : String) : String :=
  ⟨((s.data.dropWhile isSpaceChar).reverse.dropWhile isSpaceChar).reverse⟩

/-- Accumulator-based splitter behind `splitWords`. -/
def wordsAux : List Char → List Char → List String
  | [], acc => if acc.isEmpty then [] else [⟨acc.reverse⟩]
  | c :: t, acc =>
      if isSpaceChar c then
        if acc.isEmpty then wordsAux t [] else ⟨acc.reverse⟩ :: wordsAux t []
      else wordsAux t (c :: acc)

/-- Models Python `str.split()` with no argument: split on whitespace runs,
discarding empty pieces. -/
def splitWords (s : String) : List String :=
  wordsAux s.data []

/-- Accumulator-based splitter behind `splitComma`. -/
def splitCommaAux : List Char → List Char → List String
  | [], acc => [⟨acc.reverse⟩]
  | c :: t, acc =>
      if c == ',' then ⟨acc.reverse⟩ :: splitCommaAux t [] else splitCommaAux t (c :: acc)

/-- Models Python `str.split(",")`: split at every comma, keeping empty
pieces (so the result is never the empty list). -/
def splitComma (s : String) : List String :=
  splitCommaAux s.data []

/-- Value of a digit character. -/
def digitVal (c : Char) : Nat := c.toNat - 48

/-- Reads a digit list as a natural number. -/
def digitsToNat (l : List Char) : Nat :=
  l.foldl (fun n c => n * 10 + digitVal c) 0

/-- Tail of a digit group with Python underscore rules: an underscore must
be followed (and, via `validGroup`, preceded) by a digit. -/
def validGroupTail : List Char → Bool
  | [] => true
  | '_' :: d :: t => d.isDigit && validGroupTail t
  | ['_'] => false
  | d :: t => d.isDigit && validGroupTail t

/-- A non-empty digit group as Python float/int literals allow: digits with
single underscores strictly between digits (`"1_000"` valid, `"_1"`,
`"1_"`, `"1__0"` invalid). -/
def validGroup (l : List Char) : Bool :=
  match l with
  | [] => false
  | c :: t => c.isDigit && validGroupTail t

/-- The digits of a group with its underscores removed. -/
def groupDigits (l : List Char) : List Char :=
  l.filter (fun c => c != '_')

/-- `10^n` as a natural number, by repeated multiplication so that it
evaluates inside the kernel. -/
def pow10Nat : Nat → Nat
  | 0 => 1
  | n + 1 => 10 * pow10Nat n

/-- `10^n` as a rational. -/
def pow10 (n : Nat) : ℚ :=
  (pow10Nat n : ℚ)

/-- Splits at the first `'.'`, returning the part before it and, when a
dot is present, the part after it. -/
def splitAtDot : List Char → (List Char × Option (List Char))
  | [] => ([], none)
  | c :: t =>
      if c == '.' then ([], some t)
      else
        let r := splitAtDot t
        (c :: r.1, r.2)

/-- Splits at the first `'e'`/`'E'` (the exponent marker), returning the
mantissa part and, when a marker is present, the part after it. -/
def splitAtExp : List Char → (List Char × Option (List Char))
  | [] => ([], none)
  | c :: t =>
      if c == 'e' || c == 'E' then ([], some t)
      else
        let r := splitAtExp t
        (c :: r.1, r.2)

/-- Parses a Python float mantissa: `digits [. digits?] | . digits`, each
digit run a `validGroup`, with at least one digit overall and at most one
dot. -/
def parseMantissa (l : List Char) : Option ℚ :=
  let p := splitAtDot l
  match p.2 with
  | none => if validGroup p.1 then some (digitsToNat (groupDigits p.1) : ℚ) else none
  | some fp =>
      if fp.all (fun c => c != '.') &&
          (p.1.isEmpty || validGroup p.1) && (fp.isEmpty || validGroup fp) &&
          !(p.1.isEmpty && fp.isEmpty) then
        some ((digitsToNat (groupDigits p.1) : ℚ) +
          (digitsToNat (groupDigits fp) : ℚ) / pow10 (groupDigits fp).length)
      else none

/-- Parses a Python float exponent: an optional sign followed by a digit
group. -/
def parseExponent (l : List Char) : Option Int :=
  let sp : Bool × List Char :=
    match l with
    | '-' :: t => (true, t)
    | '+' :: t => (false, t)
    | t => (false, t)
  if validGroup sp.2 then
    some (if sp.1 then -(digitsToNat (groupDigits sp.2) : Int)
          else (digitsToNat (groupDigits sp.2) : Int))
  else none

/-- Scales a mantissa by a (possibly negative) power of ten. -/
def applyExp (m : ℚ) (e : Int) : ℚ :=
  if 0 ≤ e then m * pow10 e.toNat else m / pow10 (-e).toNat

/-- Outcome of Python `float(s)` on a string: a finite value (exact, before
IEEE rounding), an infinity, a NaN, or a raised `ValueError`. -/
inductive PyFloat where
  | finite (q : ℚ)
  | infinite (neg : Bool)
  | nan
  | err
  deriving DecidableEq, Repr

/-- Models Python `float(s)` on ASCII strings: surrounding whitespace is
stripped, an optional sign is read, then `inf`/`infinity`/`nan`
(case-insensitive) or a decimal literal with optional fractional part,
optional exponent, and underscores between digits.  `err` models a raised
`ValueError`.  Python additionally maps Unicode decimal digits and
whitespace to ASCII before parsing; theorems whose hypotheses mention this
parser therefore restrict the relevant strings to ASCII. -/
def pyFloatParse (s : String) : PyFloat :=
  let trimmed := ((s.data.dropWhile isSpaceChar).reverse.dropWhile isSpaceChar).reverse
  let sp : Bool × List Char :=
    match trimmed with
    | '-' :: t => (true, t)
    | '+' :: t => (false, t)
    | t => (false, t)
  let lowBody := sp.2.map Char.toLower
  if lowBody = "inf".data || lowBody = "infinity".data then .infinite sp.1
  else if lowBody = "nan".data then .nan
  else
    let me := splitAtExp sp.2
    match parseMantissa me.1 with
    | none => .err
    | some m =>
        match me.2 with
        | none => .finite (if sp.1 then -m else m)
        | some echars =>
            match parseExponent echars with
            | none => .err
            | some e =>
                let v := applyExp m e
                .finite (if sp.1 then -v else v)

/-- Models Python `round(x, 2)`: the floor of `100 x + 1/2`, divided by
100, written on the rational's numerator and denominator so that it
evaluates inside the kernel.  Ties (where `100 x + 1/2` is an integer)
do not arise in any statement proved below, so the half-to-even tie rule
of Python is not needed. -/
def round2 (x : ℚ) : ℚ :=
  (((x * 100 + 1 / 2).num / ((x * 100 + 1 / 2).den : ℤ) : ℤ) : ℚ) / 100

/-- Python `min(a, b)` on two numbers: the first argument on ties. -/
def pyMin (a b : ℚ) : ℚ :=
  if a ≤ b then a else b

/-- Python `max(a, b)` on two rationals: the first argument on ties. -/
def pyMaxQ (a b : ℚ) : ℚ :=
  if b ≤ a then a else b

/-- Python `max(a, b)` on two integers: the first argument on ties. -/
def pyMaxI (a b : Int) : Int :=
  if b ≤ a then a else b

/-! ## Data model (the dictionary fields the scoring code reads) -/

/-- One work-experience entry, as read by `_assess_experience_relevance`
(`duration`, `title`) and `_assess_company_prestige` (`name`).  An absent
key is the empty string, matching `exp.get(k, "")`-style access; note the
code defaults an absent `duration` to `"1 year"`, which parses to the same
value `1.0` as the empty string does. -/
structure CompanyEntry where
  name : String
  title : String
  duration : String
  deriving DecidableEq, Repr

/-- One education entry, as read by `_evaluate_education`. -/
structure EduEntry where
  school : String
  degree : String
  deriving DecidableEq, Repr

/-- A candidate dictionary, restricted to the fields the scoring core
reads.  The six optional completeness fields only matter through their
truthiness, so they are booleans. -/
structure Candidate where
  name : String
  linkedin_url : String
  headline : String
  location : String
  summary : String
  skills : List String
  experience : List CompanyEntry
  companies : List CompanyEntry
  education : List EduEntry
  certifications : Bool
  volunteer : Bool
  publications : Bool
  patents : Bool
  awards : Bool
  languages : Bool
  deriving DecidableEq, Repr

/-- The all-empty candidate (every key absent). -/
def emptyCandidate : Candidate :=
  ⟨"", "", "", "", "", [], [], [], [], false, false, false, false, false, false⟩

/-- A job dictionary, restricted to the fields `score_profiles` and the
pipeline read. -/
structure Job where
  title : String
  company : String
  location : String
  skills : List String
  remote : Bool
  required_years : Int
  deriving DecidableEq, Repr

/-- The all-empty job. -/
def emptyJob : Job := ⟨"", "", "", [], false, 0⟩

/-! ## Criterion evaluators (`ScoringAgent` methods) -/

/-- `|set(cs) ∩ set(rs)|`: the number of distinct members of `rs` that
occur in `cs`, as computed by `len(set(candidate_skills) & set(required_skills))`. -/
def interCount (cs rs : List String) : Nat :=
  ((rs.dedup).filter (fun s => cs.contains s)).length

/-- `ScoringAgent._evaluate_skills_match` (scoring.py lines 65-103),
returning the `score` field of its result.  `score_profiles` passes no
preferred list; Python `if preferred_skills:` is false for both `None`
and `[]`, so the absent argument is modelled by `[]`. -/
def evaluateSkillsMatch (candidateSkills requiredSkills preferredSkills : List String) : ℚ :=
  if requiredSkills.isEmpty then 5
  else
    let requiredMatch : ℚ := (interCount candidateSkills requiredSkills : ℚ) / (requiredSkills.length : ℚ)
    let preferredBonus : ℚ :=
      if preferredSkills.isEmpty then 0
      else ((interCount candidateSkills preferredSkills : ℚ) / (preferredSkills.length : ℚ)) * (1/5)
    round2 (pyMin 10 (requiredMatch * 8 + preferredBonus))

/-- `ScoringAgent._parse_duration` (scoring.py lines 396-406): `1.0` on
anything unparsable (the bare `except` catches both the empty-split index
error, modelled by the `[]` case, and the `float` conversion error,
modelled by `PyFloat.err`).  A token of the form `inf`/`nan` is not a
`ValueError` in Python — its IEEE value lies outside the exact-rational
model, so this embedding also returns 1 there and every theorem whose
hypothesis constrains durations excludes those tokens via
`durationParsesFinite`. -/
def parseDuration (duration : String) : ℚ :=
  let low := lowerStr duration
  if strOccursIn "year" low then
    match splitWords duration with
    | [] => 1
    | w :: _ =>
        match pyFloatParse w with
        | .finite q => q
        | _ => 1
  else if strOccursIn "month" low then
    match splitWords duration with
    | [] => 1
    | w :: _ =>
        match pyFloatParse w with
        | .finite q => q / 12
        | _ => 1
  else 1

/-- True unless `_parse_duration` would call `float` on a token that
Python parses as an infinity or NaN — the one branch of `parseDuration`
that the exact-rational model cannot represent. -/
def durationParsesFinite (duration : String) : Bool :=
  let low := lowerStr duration
  if strOccursIn "year" low || strOccursIn "month" low then
    match splitWords duration with
    | [] => true
    | w :: _ =>
        match pyFloatParse w with
        | .infinite _ => false
        | .nan => false
        | _ => true
  else true

/-- Every character of the string is ASCII.  On ASCII strings the
embedding of `lower`, `split`, substring containment and `float` agrees
with Python exactly; outside ASCII Python additionally folds Unicode
decimal digits (and some case mappings) that the embedding does not
model. -/
def isAsciiStr (s : String) : Bool :=
  s.data.all (fun ch => ch.toNat ≤ 127)

/-- `ScoringAgent._calculate_title_relevance` (scoring.py lines 408-418):
word-set overlap ratio relative to the job title words. -/
def titleRelevance (candidateTitle jobTitle : String) : ℚ :=
  let cw := (splitWords (lowerStr candidateTitle)).dedup
  let jw := (splitWords (lowerStr jobTitle)).dedup
  if jw.isEmpty then 0
  else ((jw.filter (fun w => cw.contains w)).length : ℚ) / (jw.length : ℚ)

/-- `ScoringAgent._assess_experience_relevance` (scoring.py lines 105-153),
returning the `score` field. -/
def assessExperienceRelevance (candidateExperience : List CompanyEntry)
    (jobTitle : String) (requiredYears : Int) : ℚ :=
  if candidateExperience.isEmpty then 1
  else
    let totalYears : ℚ := (candidateExperience.map (fun e => parseDuration e.duration)).sum
    let relevantYears : ℚ :=
      (candidateExperience.filterMap
        (fun e => if titleRelevance e.title jobTitle > 3/5 then some (parseDuration e.duration) else none)).sum
    let yearsScore : ℚ := pyMin 10 ((totalYears / ((pyMaxI requiredYears 1 : Int) : ℚ)) * 8)
    let relevanceScore : ℚ := (relevantYears / pyMaxQ totalYears 1) * 2
    round2 (pyMin 10 (yearsScore + relevanceScore))

/-- The `degree_scores` table of `_evaluate_education`, in its Python
dictionary insertion order (which is how the code iterates it). -/
def degreeTable : List (String × ℚ) :=
  [("phd", 10), ("doctorate", 10), ("masters", 17/2), ("ms", 17/2), ("ma", 8),
   ("bachelors", 7), ("bs", 7), ("ba", 13/2), ("associate", 5), ("high school", 3)]

/-- Score of the first table key occurring in the lowercased degree string:
the inner `for degree_type, score in degree_scores.items(): ... break` loop. -/
def firstDegreeScore (degree : String) : Option ℚ :=
  (degreeTable.find? (fun kv => strOccursIn kv.1 (lowerStr degree))).map Prod.snd

/-- The `prestigious_schools` list of `_evaluate_education`. -/
def prestigiousSchools : List String :=
  ["stanford", "mit", "harvard", "berkeley", "cmu", "caltech"]

/-- `ScoringAgent._evaluate_education` (scoring.py lines 155-216),
returning the `score` field. -/
def evaluateEducation (education : List EduEntry) : ℚ :=
  if education.isEmpty then 5
  else
    let highest : ℚ :=
      education.foldl
        (fun h e =>
          match firstDegreeScore e.degree with
          | some s => if h < s then s else h
          | none => h) 0
    let bonus : ℚ :=
      if education.any (fun e => prestigiousSchools.any (fun p => strOccursIn p (lowerStr e.school)))
      then 1 else 0
    round2 (pyMin 10 (highest + bonus))

/-- The `prestigious_companies` list of `_assess_company_prestige`. -/
def prestigiousCompanies : List String :=
  ["google", "microsoft", "apple", "amazon", "meta", "facebook",
   "netflix", "uber", "airbnb", "stripe", "square", "palantir",
   "salesforce", "oracle", "ibm", "intel", "nvidia", "amd"]

/-- Per-company score inside `_assess_company_prestige`. -/
def companyScore (c : CompanyEntry) : ℚ :=
  let low := lowerStr c.name
  if prestigiousCompanies.any (fun p => strOccursIn p low) then 9
  else if strOccursIn "startup" low || strOccursIn "inc" low then 7
  else 6

/-- `ScoringAgent._assess_company_prestige` (scoring.py lines 218-261),
returning the `score` field (the arithmetic mean of the per-company
scores; the list is non-empty in that branch). -/
def assessCompanyPrestige (companies : List CompanyEntry) : ℚ :=
  if companies.isEmpty then 5
  else round2 (((companies.map companyScore).sum) / (companies.length : ℚ))

/-- `ScoringAgent._evaluate_location_fit` (scoring.py lines 263-301),
returning the `score` field. -/
def evaluateLocationFit (candidateLocation jobLocation : String) (remoteAllowed : Bool) : ℚ :=
  if candidateLocation = "" || jobLocation = "" then 5
  else if lowerStr candidateLocation = lowerStr jobLocation then 10
  else
    let cparts := splitComma candidateLocation
    let jparts := splitComma jobLocation
    if lowerStr (cparts.headD "") = lowerStr (jparts.headD "") then 9
    else
      let cps := cparts.map (fun p => lowerStr (stripStr p))
      let jps := jparts.map (fun p => lowerStr (stripStr p))
      if cps.length > 1 && jps.length > 1 && (cps.get? 1 == jps.get? 1) then 7
      else if remoteAllowed then 6
      else 3

/-- The `required_fields` list of `_calculate_profile_completeness`. -/
def requiredFields : List String :=
  ["name", "headline", "location", "experience", "education", "skills", "summary"]

/-- The `optional_fields` list of `_calculate_profile_completeness`. -/
def optionalFields : List String :=
  ["certifications", "volunteer", "publications", "patents", "awards", "languages"]

/-- Truthiness of `candidate_data.get(field)` for the required completeness
fields: a non-empty string or non-empty list (an absent key is falsy). -/
def requiredFieldPresent (c : Candidate) (f : String) : Bool :=
  if f = "name" then c.name ≠ ""
  else if f = "headline" then c.headline ≠ ""
  else if f = "location" then c.location ≠ ""
  else if f = "experience" then !c.experience.isEmpty
  else if f = "education" then !c.education.isEmpty
  else if f = "skills" then !c.skills.isEmpty
  else if f = "summary" then c.summary ≠ ""
  else false

/-- Truthiness of `candidate_data.get(field)` for the optional fields. -/
def optionalFieldPresent (c : Candidate) (f : String) : Bool :=
  if f = "certifications" then c.certifications
  else if f = "volunteer" then c.volunteer
  else if f = "publications" then c.publications
  else if f = "patents" then c.patents
  else if f = "awards" then c.awards
  else if f = "languages" then c.languages
  else false

/-- `ScoringAgent._calculate_profile_completeness` (scoring.py lines
303-340), returning the `score` field. -/
def calculateProfileCompleteness (c : Candidate) : ℚ :=
  let requiredComplete : ℚ :=
    ((requiredFields.filter (fun f => requiredFieldPresent c f)).length : ℚ) / (requiredFields.length : ℚ)
  let optionalBonus : ℚ :=
    (((optionalFields.filter (fun f => optionalFieldPresent c f)).length : ℚ) / (optionalFields.length : ℚ)) * (1/2)
  round2 (pyMin 10 (requiredComplete * 8 + optionalBonus * 2))

/-! ## Confidence estimator and aggregation -/

/-- The `confidence_factors` table of `_determine_confidence_level`, in
dictionary insertion order. -/
def confidenceFactors : List (String × ℚ) :=
  [("has_linkedin_url", 1/5), ("has_experience", 1/5), ("has_education", 3/20),
   ("has_skills", 3/20), ("has_summary", 1/10), ("has_location", 1/10), ("has_headline", 1/10)]

/-- `ScoringAgent._has_data_for_factor` (scoring.py lines 420-442):
list fields are present when non-empty, string fields when non-empty after
stripping whitespace; an unknown factor maps to no field and is absent. -/
def hasDataForFactor (c : Candidate) (factor : String) : Bool :=
  if factor = "has_linkedin_url" then stripStr c.linkedin_url ≠ ""
  else if factor = "has_experience" then !c.experience.isEmpty
  else if factor = "has_education" then !c.education.isEmpty
  else if factor = "has_skills" then !c.skills.isEmpty
  else if factor = "has_summary" then stripStr c.summary ≠ ""
  else if factor = "has_location" then stripStr c.location ≠ ""
  else if factor = "has_headline" then stripStr c.headline ≠ ""
  else false

/-- `ScoringAgent._determine_confidence_level` (scoring.py lines 369-394). -/
def determineConfidenceLevel (c : Candidate) : ℚ :=
  pyMin 1 (confidenceFactors.foldl
    (fun acc fw => if hasDataForFactor c fw.1 then acc + fw.2 else acc) 0)

/-- The `scoring_weights` table set in `ScoringAgent.__init__`
(scoring.py lines 30-37), in dictionary insertion order. -/
def scoringWeights : List (String × ℚ) :=
  [("skills_match", 3/10), ("experience_relevance", 1/4), ("education", 3/20),
   ("company_prestige", 3/20), ("location_fit", 1/10), ("profile_completeness", 1/20)]

/-- The six criterion scores gathered by `score_profiles`; in the Python
code this is the `scores` dictionary, which always holds all six keys. -/
structure CriterionScores where
  skills_match : ℚ
  experience_relevance : ℚ
  education : ℚ
  company_prestige : ℚ
  location_fit : ℚ
  profile_completeness : ℚ
  deriving DecidableEq, Repr

/-- Lookup of `scores[criterion]["score"]` by criterion name (the
`score_data.get("score", 0)` default never fires for the six real keys). -/
def getCriterion (s : CriterionScores) (name : String) : ℚ :=
  if name = "skills_match" then s.skills_match
  else if name = "experience_relevance" then s.experience_relevance
  else if name = "education" then s.education
  else if name = "company_prestige" then s.company_prestige
  else if name = "location_fit" then s.location_fit
  else if name = "profile_completeness" then s.profile_completeness
  else 0

/-- `ScoringAgent._calculate_final_score` (scoring.py lines 342-367),
returning the rounded weighted sum (first component of the Python pair);
every criterion in the weight table is present in the scores dictionary
built by `score_profiles`, so the `if criterion in scores` guard always
holds there. -/
def calculateFinalScore (s : CriterionScores) : ℚ :=
  round2 (scoringWeights.foldl (fun acc cw => acc + getCriterion s cw.1 * cw.2) 0)

/-- Result triple of `score_profiles`, with the six criterion scores that
populate the returned breakdown. -/
structure ScoreResult where
  final : ℚ
  scores : CriterionScores
  confidence : ℚ
  deriving DecidableEq, Repr

/-- `score_profiles` (scoring.py lines 456-498): gathers the six criterion
scores — note it passes `candidate["companies"]` to both the experience
and the prestige evaluators, and no preferred-skills list — then
aggregates and computes the confidence from the candidate alone. -/
def scoreProfiles (candidate : Candidate) (job : Job) : ScoreResult :=
  let scores : CriterionScores :=
    { skills_match := evaluateSkillsMatch candidate.skills job.skills []
      experience_relevance := assessExperienceRelevance candidate.companies job.title job.required_years
      education := evaluateEducation candidate.education
      company_prestige := assessCompanyPrestige candidate.companies
      location_fit := evaluateLocationFit candidate.location job.location job.remote
      profile_completeness := calculateProfileCompleteness candidate }
  { final := calculateFinalScore scores
    scores := scores
    confidence := determineConfidenceLevel candidate }

/-! ## Pipeline orchestration (`pipeline.py`)

`run_job_pipeline` calls four collaborators: `search_candidates`,
`enrich_profiles`, `score_profiles` and `generate_outreach_message`.  Each
may raise; a raised exception is modelled by `Except.error` carrying the
exception text.  The pipeline itself is embedded as a function of those
collaborator outcomes, so the theorems quantify over every possible
pattern of collaborator success and failure. -/

/-- A candidate after the scoring stage has attached `fit_score` and
`confidence` to its dictionary. -/
structure Scored where
  cand : Candidate
  fit : ℚ
  confidence : ℚ
  deriving DecidableEq, Repr

/-- A top candidate after the messaging stage has also attached an
`outreach_message`. -/
structure Messaged where
  scored : Scored
  message : String
  deriving DecidableEq, Repr

/-- The scoring loop body (pipeline.py lines 77-96): a successful
`score_profiles` call attaches its score and confidence, a raised
exception attaches the documented defaults `5.0` and `0.5`; either way
the candidate is appended to `scored_candidates`. -/
def applyScore (scoreFn : Candidate → Except String (ℚ × ℚ)) (c : Candidate) : Scored :=
  match scoreFn c with
  | .ok (s, conf) => ⟨c, s, conf⟩
  | .error _ => ⟨c, 5, 1/2⟩

/-- The whole scoring stage: the loop over `enriched_candidates`. -/
def scoreStage (scoreFn : Candidate → Except String (ℚ × ℚ)) (cs : List Candidate) : List Scored :=
  cs.map (applyScore scoreFn)

/-- Insertion step of a stable descending sort by `key`: an element moves
past exactly those entries with a strictly smaller key, so equal keys keep
their input order. -/
def insertDesc (key : Scored → ℚ) (x : Scored) : List Scored → List Scored
  | [] => [x]
  | y :: ys => if key y < key x then x :: y :: ys else y :: insertDesc key x ys

/-- Stable descending sort by `key`, modelling Python
`sorted(..., key=..., reverse=True)` (which is stable). -/
def sortDesc (key : Scored → ℚ) (l : List Scored) : List Scored :=
  l.foldl (fun acc x => insertDesc key x acc) []

/-- The ranking step of pipeline.py line 109:
`sorted(scored_candidates, key=lambda c: c.get("fit_score", 0), reverse=True)[:10]`.
No score-threshold filter appears anywhere in `run_job_pipeline`. -/
def rankStage (scored : List Scored) : List Scored :=
  (sortDesc Scored.fit scored).take 10

/-- The fallback outreach message of pipeline.py line 117 (an f-string
greeting built from the candidate name, job title and company; the exact
filler words are irrelevant to every property below). -/
def fallbackMessage (c : Candidate) (j : Job) : String :=
  "Hi " ++ c.name ++ ", greeting about a " ++ j.title ++ " at " ++ j.company ++ "."

/-- The messaging loop body (pipeline.py lines 111-118): per-candidate
failures substitute the fallback template. -/
def applyMessage (messageFn : Candidate → Except String String) (j : Job) (s : Scored) : Messaged :=
  match messageFn s.cand with
  | .ok m => ⟨s, m⟩
  | .error _ => ⟨s, fallbackMessage s.cand j⟩

/-- The result dictionary of `run_job_pipeline`, restricted to the parts
the claims are about. -/
structure PipelineResult where
  topCandidates : List Messaged
  errors : List String
  scoredCount : Nat
  success : Bool
  deriving DecidableEq, Repr

/-- `run_job_pipeline` (pipeline.py lines 16-147) as a function of the
four collaborator outcomes.

* search raising appends `"Search error: ..."` and continues with `[]`
  (line 58) — it does not abort the run;
* enrichment raising appends `"Enrichment error: ..."` and falls back to
  the unenriched list (line 71);
* the scoring and messaging loop bodies swallow per-candidate exceptions,
  so the outer `except` blocks of those two steps never fire (their loop
  machinery over Lean lists is total);
* `success` is `len(pipeline_metadata["errors"]) == 0` (line 146). -/
def runJobPipeline (job : Job)
    (searchRes : Except String (List Candidate))
    (enrichFn : List Candidate → Except String (List Candidate))
    (scoreFn : Candidate → Except String (ℚ × ℚ))
    (messageFn : Candidate → Except String String) : PipelineResult :=
  let step1 : List Candidate × List String :=
    match searchRes with
    | .ok cs => (cs, [])
    | .error e => ([], ["Search error: " ++ e])
  let step2 : List Candidate × List String :=
    match enrichFn step1.1 with
    | .ok ecs => (ecs, step1.2)
    | .error e => (step1.1, step1.2 ++ ["Enrichment error: " ++ e])
  let scored := scoreStage scoreFn step2.1
  let top := rankStage scored
  let messaged := top.map (applyMessage messageFn job)
  { topCandidates := messaged
    errors := step2.2
    scoredCount := scored.length
    success := step2.2.isEmpty }

/-! ## Concrete inputs and claim-side models used by the theorems -/

/-- `true` exactly when the collaborator call did not raise. -/
def exceptOk {ε α : Type} (e : Except ε α) : Bool :=
  match e with
  | .ok _ => true
  | .error _ => false

/-- The candidate list a successful search produced, as seen by the
enrichment stage inside `run_job_pipeline` (a failed search leaves the
empty list, pipeline.py line 58). -/
def searchOutput (sr : Except String (List Candidate)) : List Candidate :=
  match sr with
  | .ok cs => cs
  | .error _ => []

/-- A candidate whose only populated field is a single company entry with
the duration string `"-100 years"`. -/
def negDurationCandidate : Candidate :=
  { emptyCandidate with companies := [⟨"", "", "-100 years"⟩] }

/-- A candidate distinguished only by name. -/
def namedCandidate (n : String) : Candidate :=
  { emptyCandidate with name := n }

/-- Five distinct candidates for the ranking scenario. -/
def fiveCandidates : List Candidate :=
  [namedCandidate "a", namedCandidate "b", namedCandidate "c",
   namedCandidate "d", namedCandidate "e"]

/-- A scoring collaborator assigning the five candidates the scores
9, 8, 7, 6, 5 (spec section 8, threshold-filtering scenario). -/
def fiveScoreFn (c : Candidate) : Except String (ℚ × ℚ) :=
  if c.name = "a" then .ok (9, 1)
  else if c.name = "b" then .ok (8, 1)
  else if c.name = "c" then .ok (7, 1)
  else if c.name = "d" then .ok (6, 1)
  else if c.name = "e" then .ok (5, 1)
  else .ok (0, 1)

/-- A scoring collaborator that raises on every candidate. -/
def alwaysFailScore (_ : Candidate) : Except String (ℚ × ℚ) :=
  .error "boom"

/-- A candidate with a populated `experience` field and no `companies`
field. -/
def experienceOnlyCandidate : Candidate :=
  { emptyCandidate with experience := [⟨"Acme", "Engineer", "3 years"⟩] }

/-- Per-degree score as the amended claim describes it: the highest-level
entry of the descending degree-level table whose key occurs in the
lowercased degree string (equivalently, the first match when the table is
scanned in its descending order), and 0 when no key matches. -/
def levelDegreeScore (degree : String) : ℚ :=
  (degreeTable.filter (fun kv => strOccursIn kv.1 (lowerStr degree))).foldr
    (fun kv m => max kv.2 m) 0

/-- The education evaluator as the amended claim describes it: per-degree
scores by highest-level substring match against the degree table, maximum
across entries, +1.0 prestige bonus on a case-insensitive school substring
match, clamped to 10 (and rounded as the code rounds); 5.0 with no
entries. -/
def educationByLevel (education : List EduEntry) : ℚ :=
  if education.isEmpty then 5
  else
    round2 (pyMin 10
      (education.foldl (fun h e => max h (levelDegreeScore e.degree)) 0 +
        (if education.any (fun e => prestigiousSchools.any (fun p => strOccursIn p (lowerStr e.school)))
         then 1 else 0)))

/-- Per-degree score as the original claim reads: the longest table key
occurring in the lowercased degree string (on equal lengths, the earlier
entry of the descending table); 0 when no key matches. -/
def longestDegreeScore (degree : String) : ℚ :=
  let hits := degreeTable.filter (fun kv => strOccursIn kv.1 (lowerStr degree))
  let best := hits.foldl
    (fun acc kv =>
      match acc with
      | none => some kv
      | some cur => if cur.1.length < kv.1.length then some kv else acc) none
  match best with
  | some kv => kv.2
  | none => 0

/-- The education evaluator as the original claim reads, with the
longest-substring-match rule in place of the code's
first-match-in-descending-order rule; all other steps as in
`educationByLevel`. -/
def educationByLongest (education : List EduEntry) : ℚ :=
  if education.isEmpty then 5
  else
    round2 (pyMin 10
      (education.foldl (fun h e => max h (longestDegreeScore e.degree)) 0 +
        (if education.any (fun e => prestigiousSchools.any (fun p => strOccursIn p (lowerStr e.school)))
         then 1 else 0)))

/-! ## Bounds lemmas for the evaluators -/

lemma round2_eq_floor (x : ℚ) : round2 x = ((⌊x * 100 + 1 / 2⌋ : ℤ) : ℚ) / 100 := by
  unfold round2
  rw [Rat.floor_def]

lemma round2_nonneg {x : ℚ} (h : 0 ≤ x) : 0 ≤ round2 x := by
  rw [round2_eq_floor]
  have h0 : (0 : ℤ) ≤ ⌊x * 100 + 1 / 2⌋ := by
    apply Int.le_floor.mpr
    push_cast
    linarith
  have : (0 : ℚ) ≤ (⌊x * 100 + 1 / 2⌋ : ℚ) := by exact_mod_cast h0
  linarith

lemma round2_le_ten {x : ℚ} (h : x ≤ 10) : round2 x ≤ 10 := by
  rw [round2_eq_floor]
  have h1 : ⌊x * 100 + 1 / 2⌋ ≤ ⌊(2001 : ℚ) / 2⌋ := by
    apply Int.floor_le_floor
    linarith
  have h2 : ⌊(2001 : ℚ) / 2⌋ = 1000 := by
    rw [Int.floor_eq_iff]
    all_goals norm_num
  have : (⌊x * 100 + 1 / 2⌋ : ℚ) ≤ 1000 := by
    rw [h2] at h1; exact_mod_cast h1
  linarith

lemma pyMin_eq_min (a b : ℚ) : pyMin a b = min a b := by
  unfold pyMin
  rw [min_def]

lemma pyMaxQ_eq_max (a b : ℚ) : pyMaxQ a b = max a b := by
  unfold pyMaxQ
  split
  · rename_i h
    exact (max_eq_left h).symm
  · rename_i h
    exact (max_eq_right (le_of_not_le h)).symm

lemma pyMaxI_eq_max (a b : Int) : pyMaxI a b = max a b := by
  unfold pyMaxI
  split
  · rename_i h
    exact (max_eq_left h).symm
  · rename_i h
    exact (max_eq_right (le_of_not_le h)).symm

lemma min_ten_mem {x : ℚ} (h : 0 ≤ x) : 0 ≤ min 10 x ∧ min 10 x ≤ 10 :=
  ⟨le_min (by norm_num) h, min_le_left _ _⟩

lemma evaluateSkillsMatch_bounds (cs rs ps : List String) :
    0 ≤ evaluateSkillsMatch cs rs ps ∧ evaluateSkillsMatch cs rs ps ≤ 10 := by
  unfold evaluateSkillsMatch
  simp only [pyMin_eq_min]
  split
  · norm_num
  · have hr : (0 : ℚ) ≤ (interCount cs rs : ℚ) / (rs.length : ℚ) :=
      div_nonneg (by positivity) (by positivity)
    have hb : (0 : ℚ) ≤
        (if ps.isEmpty then (0 : ℚ)
         else ((interCount cs ps : ℚ) / (ps.length : ℚ)) * (1/5)) := by
      split
      · norm_num
      · have : (0 : ℚ) ≤ (interCount cs ps : ℚ) / (ps.length : ℚ) :=
          div_nonneg (by positivity) (by positivity)
        nlinarith
    have harg : (0 : ℚ) ≤ (interCount cs rs : ℚ) / (rs.length : ℚ) * 8 +
        (if ps.isEmpty then (0 : ℚ)
         else ((interCount cs ps : ℚ) / (ps.length : ℚ)) * (1/5)) := by nlinarith
    obtain ⟨h1, h2⟩ := min_ten_mem harg
    exact ⟨round2_nonneg h1, round2_le_ten h2⟩

lemma parseDuration_sum_nonneg {l : List CompanyEntry}
    (h : ∀ e ∈ l, 0 ≤ parseDuration e.duration) :
    0 ≤ (l.map (fun e => parseDuration e.duration)).sum := by
  apply List.sum_nonneg
  intro x hx
  obtain ⟨e, he, rfl⟩ := List.mem_map.mp hx
  exact h e he

lemma assessExperienceRelevance_bounds (ce : List CompanyEntry) (t : String) (r : Int)
    (h : ∀ e ∈ ce, 0 ≤ parseDuration e.duration) :
    0 ≤ assessExperienceRelevance ce t r ∧ assessExperienceRelevance ce t r ≤ 10 := by
  unfold assessExperienceRelevance
  simp only [pyMin_eq_min, pyMaxQ_eq_max, pyMaxI_eq_max]
  split
  · norm_num
  · have htot : 0 ≤ (ce.map (fun e => parseDuration e.duration)).sum :=
      parseDuration_sum_nonneg h
    have hrel : 0 ≤ (ce.filterMap
        (fun e => if titleRelevance e.title t > 3/5 then some (parseDuration e.duration) else none)).sum := by
      apply List.sum_nonneg
      intro x hx
      obtain ⟨e, he, hfe⟩ := List.mem_filterMap.mp hx
      by_cases hc : titleRelevance e.title t > 3/5
      · simp [hc] at hfe
        exact hfe ▸ h e he
      · simp [hc] at hfe
    have hmaxr : (1 : ℚ) ≤ ((max r 1 : Int) : ℚ) := by
      have : (1 : ℤ) ≤ max r 1 := le_max_right _ _
      exact_mod_cast this
    have hys : 0 ≤ min 10 (((ce.map (fun e => parseDuration e.duration)).sum / ((max r 1 : Int) : ℚ)) * 8) := by
      apply le_min (by norm_num)
      have : 0 ≤ (ce.map (fun e => parseDuration e.duration)).sum / ((max r 1 : Int) : ℚ) :=
        div_nonneg htot (by linarith)
      linarith
    have hmaxt : (1 : ℚ) ≤ max (ce.map (fun e => parseDuration e.duration)).sum 1 :=
      le_max_right _ _
    have hrs : 0 ≤ ((ce.filterMap
        (fun e => if titleRelevance e.title t > 3/5 then some (parseDuration e.duration) else none)).sum /
          max (ce.map (fun e => parseDuration e.duration)).sum 1) * 2 := by
      have : 0 ≤ (ce.filterMap
          (fun e => if titleRelevance e.title t > 3/5 then some (parseDuration e.duration) else none)).sum /
            max (ce.map (fun e => parseDuration e.duration)).sum 1 :=
        div_nonneg hrel (by linarith)
      linarith
    have harg : 0 ≤ min 10 (((ce.map (fun e => parseDuration e.duration)).sum / ((max r 1 : Int) : ℚ)) * 8) +
        ((ce.filterMap
          (fun e => if titleRelevance e.title t > 3/5 then some (parseDuration e.duration) else none)).sum /
            max (ce.map (fun e => parseDuration e.duration)).sum 1) * 2 := by linarith
    obtain ⟨h1, h2⟩ := min_ten_mem harg
    exact ⟨round2_nonneg h1, round2_le_ten h2⟩

lemma eduFold_nonneg (l : List EduEntry) (a : ℚ) (ha : 0 ≤ a) :
    0 ≤ l.foldl
      (fun h e =>
        match firstDegreeScore e.degree with
        | some s => if h < s then s else h
        | none => h) a := by
  induction l generalizing a with
  | nil => simpa using ha
  | cons e t ih =>
      simp only [List.foldl_cons]
      apply ih
      cases hfd : firstDegreeScore e.degree with
      | none => simpa [hfd] using ha
      | some s =>
          simp only [hfd]
          split
          · linarith
          · exact ha

lemma evaluateEducation_bounds (edu : List EduEntry) :
    0 ≤ evaluateEducation edu ∧ evaluateEducation edu ≤ 10 := by
  unfold evaluateEducation
  simp only [pyMin_eq_min]
  split
  · norm_num
  · have hh := eduFold_nonneg edu 0 le_rfl
    have hb : (0 : ℚ) ≤
        (if edu.any (fun e => prestigiousSchools.any (fun p => strOccursIn p (lowerStr e.school)))
         then (1 : ℚ) else 0) := by
      split
      all_goals norm_num
    have harg : (0 : ℚ) ≤ edu.foldl
        (fun h e =>
          match firstDegreeScore e.degree with
          | some s => if h < s then s else h
          | none => h) 0 +
        (if edu.any (fun e => prestigiousSchools.any (fun p => strOccursIn p (lowerStr e.school)))
         then (1 : ℚ) else 0) := by linarith
    obtain ⟨h1, h2⟩ := min_ten_mem harg
    exact ⟨round2_nonneg h1, round2_le_ten h2⟩

lemma companyScore_bounds (c : CompanyEntry) : 0 ≤ companyScore c ∧ companyScore c ≤ 9 := by
  unfold companyScore
  dsimp only
  split_ifs <;> norm_num

lemma assessCompanyPrestige_bounds (companies : List CompanyEntry) :
    0 ≤ assessCompanyPrestige companies ∧ assessCompanyPrestige companies ≤ 10 := by
  unfold assessCompanyPrestige
  split
  · norm_num
  · rename_i hne
    have hlen : 0 < (companies.length : ℚ) := by
      have : companies ≠ [] := by simpa [List.isEmpty_iff] using hne
      have : 0 < companies.length := List.length_pos.mpr this
      exact_mod_cast this
    have hsum0 : 0 ≤ (companies.map companyScore).sum := by
      apply List.sum_nonneg
      intro x hx
      obtain ⟨e, _, rfl⟩ := List.mem_map.mp hx
      exact (companyScore_bounds e).1
    have hsum9 : (companies.map companyScore).sum ≤ 9 * (companies.length : ℚ) := by
      have h9 : ∀ x ∈ companies.map companyScore, x ≤ (9 : ℚ) := by
        intro x hx
        obtain ⟨e, _, rfl⟩ := List.mem_map.mp hx
        exact (companyScore_bounds e).2
      have := List.sum_le_card_nsmul (companies.map companyScore) 9 h9
      simpa [List.length_map, nsmul_eq_mul, mul_comm] using this
    constructor
    · exact round2_nonneg (div_nonneg hsum0 (by linarith))
    · apply round2_le_ten
      rw [div_le_iff₀ hlen]
      linarith

lemma evaluateLocationFit_bounds (cl jl : String) (ra : Bool) :
    0 ≤ evaluateLocationFit cl jl ra ∧ evaluateLocationFit cl jl ra ≤ 10 := by
  unfold evaluateLocationFit
  dsimp only
  split_ifs <;> norm_num

lemma calculateProfileCompleteness_bounds (c : Candidate) :
    0 ≤ calculateProfileCompleteness c ∧ calculateProfileCompleteness c ≤ 10 := by
  unfold calculateProfileCompleteness
  simp only [pyMin_eq_min]
  have hreq : ((requiredFields.filter (fun f => requiredFieldPresent c f)).length : ℚ) ≤ 7 := by
    have h := List.length_filter_le (fun f => requiredFieldPresent c f) requiredFields
    have h7 : requiredFields.length = 7 := by decide
    rw [h7] at h
    exact_mod_cast h
  have hopt : ((optionalFields.filter (fun f => optionalFieldPresent c f)).length : ℚ) ≤ 6 := by
    have h := List.length_filter_le (fun f => optionalFieldPresent c f) optionalFields
    have h6 : optionalFields.length = 6 := by decide
    rw [h6] at h
    exact_mod_cast h
  have hlen7 : (requiredFields.length : ℚ) = 7 := by norm_num [requiredFields]
  have hlen6 : (optionalFields.length : ℚ) = 6 := by norm_num [optionalFields]
  rw [hlen7, hlen6]
  have hr0 : (0 : ℚ) ≤ ((requiredFields.filter (fun f => requiredFieldPresent c f)).length : ℚ) / 7 := by
    positivity
  have hr1 : ((requiredFields.filter (fun f => requiredFieldPresent c f)).length : ℚ) / 7 ≤ 1 := by
    linarith
  have ho0 : (0 : ℚ) ≤ ((optionalFields.filter (fun f => optionalFieldPresent c f)).length : ℚ) / 6 := by
    positivity
  have ho1 : ((optionalFields.filter (fun f => optionalFieldPresent c f)).length : ℚ) / 6 ≤ 1 := by
    linarith
  have harg : (0 : ℚ) ≤ ((requiredFields.filter (fun f => requiredFieldPresent c f)).length : ℚ) / 7 * 8 +
      ((optionalFields.filter (fun f => optionalFieldPresent c f)).length : ℚ) / 6 * (1/2) * 2 := by
    nlinarith
  obtain ⟨h1, h2⟩ := min_ten_mem harg
  exact ⟨round2_nonneg h1, round2_le_ten h2⟩

/-- Unfolding of the aggregation fold over the concrete weight table. -/
lemma calculateFinalScore_eq (s : CriterionScores) :
    calculateFinalScore s =
      round2 (0 + s.skills_match * (3/10) + s.experience_relevance * (1/4) + s.education * (3/20) +
        s.company_prestige * (3/20) + s.location_fit * (1/10) + s.profile_completeness * (1/20)) := rfl

lemma calculateFinalScore_bounds (s : CriterionScores)
    (h1 : 0 ≤ s.skills_match ∧ s.skills_match ≤ 10)
    (h2 : 0 ≤ s.experience_relevance ∧ s.experience_relevance ≤ 10)
    (h3 : 0 ≤ s.education ∧ s.education ≤ 10)
    (h4 : 0 ≤ s.company_prestige ∧ s.company_prestige ≤ 10)
    (h5 : 0 ≤ s.location_fit ∧ s.location_fit ≤ 10)
    (h6 : 0 ≤ s.profile_completeness ∧ s.profile_completeness ≤ 10) :
    0 ≤ calculateFinalScore s ∧ calculateFinalScore s ≤ 10 := by
  rw [calculateFinalScore_eq]
  obtain ⟨a1, b1⟩ := h1
  obtain ⟨a2, b2⟩ := h2
  obtain ⟨a3, b3⟩ := h3
  obtain ⟨a4, b4⟩ := h4
  obtain ⟨a5, b5⟩ := h5
  obtain ⟨a6, b6⟩ := h6
  constructor
  · apply round2_nonneg; nlinarith
  · apply round2_le_ten; nlinarith

/-! ## Sorting lemmas for the ranking step -/

lemma insertDesc_perm (key : Scored → ℚ) (x : Scored) (l : List Scored) :
    (insertDesc key x l).Perm (x :: l) := by
  induction l with
  | nil => rfl
  | cons y ys ih =>
      unfold insertDesc
      split
      · rfl
      · exact (ih.cons y).trans (List.Perm.swap x y ys)

lemma mem_insertDesc {key : Scored → ℚ} {x a : Scored} {l : List Scored} :
    a ∈ insertDesc key x l ↔ a = x ∨ a ∈ l := by
  rw [(insertDesc_perm key x l).mem_iff]
  simp

lemma insertDesc_pairwise {key : Scored → ℚ} {x : Scored} {l : List Scored}
    (h : l.Pairwise (fun a b => key b ≤ key a)) :
    (insertDesc key x l).Pairwise (fun a b => key b ≤ key a) := by
  induction l with
  | nil => simp [insertDesc]
  | cons y ys ih =>
      rw [List.pairwise_cons] at h
      unfold insertDesc
      split
      · rename_i hlt
        rw [List.pairwise_cons]
        refine ⟨?_, List.pairwise_cons.mpr h⟩
        intro b hb
        rcases List.mem_cons.mp hb with rfl | hb2
        · exact le_of_lt hlt
        · exact le_trans (h.1 b hb2) (le_of_lt hlt)
      · rename_i hnlt
        rw [List.pairwise_cons]
        refine ⟨?_, ih h.2⟩
        intro b hb
        rcases mem_insertDesc.mp hb with rfl | hb2
        · exact not_lt.mp hnlt
        · exact h.1 b hb2

lemma foldl_insertDesc_perm (key : Scored → ℚ) :
    ∀ (l acc : List Scored), (l.foldl (fun a x => insertDesc key x a) acc).Perm (acc ++ l) := by
  intro l
  induction l with
  | nil => intro acc; simp
  | cons x t ih =>
      intro acc
      have h1 : ((x :: t).foldl (fun a x => insertDesc key x a) acc).Perm
          (insertDesc key x acc ++ t) := ih _
      have h2 : (insertDesc key x acc ++ t).Perm ((x :: acc) ++ t) :=
        (insertDesc_perm key x acc).append_right t
      have h3 : ((x :: acc) ++ t).Perm (acc ++ x :: t) := by
        rw [List.cons_append]
        exact List.perm_middle.symm
      exact (h1.trans h2).trans h3

lemma sortDesc_perm (key : Scored → ℚ) (l : List Scored) :
    (sortDesc key l).Perm l := by
  simpa using foldl_insertDesc_perm key l []

lemma foldl_insertDesc_pairwise (key : Scored → ℚ) :
    ∀ (l acc : List Scored), acc.Pairwise (fun a b => key b ≤ key a) →
      (l.foldl (fun a x => insertDesc key x a) acc).Pairwise (fun a b => key b ≤ key a) := by
  intro l
  induction l with
  | nil => intro acc h; simpa using h
  | cons x t ih =>
      intro acc h
      exact ih (insertDesc key x acc) (insertDesc_pairwise h)

lemma sortDesc_pairwise (key : Scored → ℚ) (l : List Scored) :
    (sortDesc key l).Pairwise (fun a b => key b ≤ key a) :=
  foldl_insertDesc_pairwise key l [] (by simp)

/-! ## First-match versus best-match over the degree table -/

lemma foldr_max_le (l : List (String × ℚ)) (B : ℚ)
    (h : ∀ kv ∈ l, kv.2 ≤ B) (h0 : 0 ≤ B) :
    l.foldr (fun kv m => max kv.2 m) 0 ≤ B := by
  induction l with
  | nil => simpa using h0
  | cons kv t ih =>
      simp only [List.foldr_cons]
      exact max_le (h kv (by simp)) (ih (fun e he => h e (by simp [he])))

lemma first_eq_best (tbl : List (String × ℚ)) (pred : String × ℚ → Bool)
    (hs : tbl.Pairwise (fun a b => b.2 ≤ a.2)) (hn : ∀ kv ∈ tbl, 0 ≤ kv.2) :
    ((tbl.find? pred).map Prod.snd).getD 0 =
      (tbl.filter pred).foldr (fun kv m => max kv.2 m) 0 := by
  induction tbl with
  | nil => rfl
  | cons kv t ih =>
      rcases hp : pred kv with _ | _
      · rw [List.find?_cons_of_neg _ (by simp [hp]), List.filter_cons_of_neg (by simp [hp])]
        exact ih hs.of_cons (fun e he => hn e (by simp [he]))
      · rw [List.find?_cons_of_pos _ hp, List.filter_cons_of_pos hp]
        simp only [Option.map_some', Option.getD_some, List.foldr_cons]
        have hle : (t.filter pred).foldr (fun kv m => max kv.2 m) 0 ≤ kv.2 :=
          foldr_max_le _ _
            (fun e he => (List.pairwise_cons.mp hs).1 e (List.mem_of_mem_filter he))
            (hn kv (by simp))
        exact (max_eq_left hle).symm

lemma firstDegree_getD_eq_level (d : String) :
    (firstDegreeScore d).getD 0 = levelDegreeScore d := by
  unfold firstDegreeScore levelDegreeScore
  apply first_eq_best
  · norm_num [degreeTable, List.pairwise_cons]
  · intro kv h
    fin_cases h <;> norm_num

lemma eduFold_eq (l : List EduEntry) (a : ℚ) (ha : 0 ≤ a) :
    l.foldl
      (fun h e =>
        match firstDegreeScore e.degree with
        | some s => if h < s then s else h
        | none => h) a
      = l.foldl (fun h e => max h (levelDegreeScore e.degree)) a := by
  induction l generalizing a with
  | nil => rfl
  | cons e t ih =>
      simp only [List.foldl_cons]
      have hstep : (match firstDegreeScore e.degree with
          | some s => if a < s then s else a
          | none => a) = max a (levelDegreeScore e.degree) := by
        have h := firstDegree_getD_eq_level e.degree
        cases hfd : firstDegreeScore e.degree with
        | none =>
            rw [hfd] at h
            simp only [Option.getD_none] at h
            show a = max a (levelDegreeScore e.degree)
            rw [← h]
            exact (max_eq_left ha).symm
        | some s =>
            rw [hfd] at h
            simp only [Option.getD_some] at h
            show (if a < s then s else a) = max a (levelDegreeScore e.degree)
            rw [← h]
            rcases le_or_lt s a with hle | hlt
            · rw [if_neg (not_lt.mpr hle), max_eq_left hle]
            · rw [if_pos hlt, max_eq_right (le_of_lt hlt)]
      rw [hstep]
      exact ih _ (le_trans ha (le_max_left _ _))

/-! ## Claim theorems -/

set_option maxRecDepth 2000 in
/-- C1, counterexample: the claim says the final score of `score_profiles`
is in [0, 10] for every candidate and job dictionary, but a candidate whose
single company entry carries the duration string `"-100 years"` is scored
`-196.35` against the all-empty job: `_parse_duration` returns `-100`,
driving the experience-relevance score to `-800` before weighting. -/
theorem scoreProfiles_negative_on_negative_duration :
    (scoreProfiles negDurationCandidate emptyJob).final = -3927 / 20 ∧
      (scoreProfiles negDurationCandidate emptyJob).final < 0 := by
  have hskills : evaluateSkillsMatch negDurationCandidate.skills emptyJob.skills [] = 5 := by
    with_unfolding_all decide
  have hexp : assessExperienceRelevance negDurationCandidate.companies emptyJob.title
      emptyJob.required_years = -800 := by
    with_unfolding_all decide
  have hedu : evaluateEducation negDurationCandidate.education = 5 := by
    with_unfolding_all decide
  have hpres : assessCompanyPrestige negDurationCandidate.companies = 6 := by
    with_unfolding_all decide
  have hloc : evaluateLocationFit negDurationCandidate.location emptyJob.location
      emptyJob.remote = 5 := by
    with_unfolding_all decide
  have hcomp : calculateProfileCompleteness negDurationCandidate = 0 := by
    with_unfolding_all decide
  have hfinal : (scoreProfiles negDurationCandidate emptyJob).final =
      calculateFinalScore
        { skills_match := evaluateSkillsMatch negDurationCandidate.skills emptyJob.skills []
          experience_relevance := assessExperienceRelevance negDurationCandidate.companies
            emptyJob.title emptyJob.required_years
          education := evaluateEducation negDurationCandidate.education
          company_prestige := assessCompanyPrestige negDurationCandidate.companies
          location_fit := evaluateLocationFit negDurationCandidate.location emptyJob.location
            emptyJob.remote
          profile_completeness := calculateProfileCompleteness negDurationCandidate } := rfl
  rw [hfinal, hskills, hexp, hedu, hpres, hloc, hcomp, calculateFinalScore_eq, round2_eq_floor]
  have hfl : ⌊((0 + (5 : ℚ) * (3/10) + (-800) * (1/4) + 5 * (3/20) + 6 * (3/20) + 5 * (1/10) +
      0 * (1/20)) * 100 + 1 / 2)⌋ = -19635 := by
    rw [Int.floor_eq_iff]
    norm_num
  rw [hfl]
  norm_num

/-- C1, amended: the final score returned by `score_profiles` lies in
[0, 10] for every job and every candidate whose company duration strings
are ASCII, are not infinity/NaN tokens, and have a nonnegative parsed
value (a string `float` rejects defaults to the benign 1.0) — in
particular for the all-empty candidate.  A duration whose first token
parses to a negative number (plain, underscored or exponent form, e.g.
`"-100 years"`, `"-1_00 years"`, `"-1e5 years"`) pushes the score below
0. -/
theorem scoreProfiles_final_in_range (c : Candidate) (j : Job)
    (h : ∀ e ∈ c.companies, isAsciiStr e.duration = true ∧
      durationParsesFinite e.duration = true ∧ 0 ≤ parseDuration e.duration) :
    0 ≤ (scoreProfiles c j).final ∧ (scoreProfiles c j).final ≤ 10 :=
  calculateFinalScore_bounds _
    (evaluateSkillsMatch_bounds c.skills j.skills [])
    (assessExperienceRelevance_bounds c.companies j.title j.required_years
      (fun e he => (h e he).2.2))
    (evaluateEducation_bounds c.education)
    (assessCompanyPrestige_bounds c.companies)
    (evaluateLocationFit_bounds c.location j.location j.remote)
    (calculateProfileCompleteness_bounds c)

/-- Witness for C1 at the all-empty candidate and all-empty job. -/
theorem scoreProfiles_final_in_range_witness :
    0 ≤ (scoreProfiles emptyCandidate emptyJob).final ∧
      (scoreProfiles emptyCandidate emptyJob).final ≤ 10 :=
  scoreProfiles_final_in_range emptyCandidate emptyJob
    (by intro e he; simp [emptyCandidate] at he)

/-- C2, counterexample: the claim says a candidate matching all required
and all preferred skills scores exactly 10, but with the implemented
bonus factor 0.2 the full-match score is `min(10, 8·1 + 0.2·1) = 8.2`. -/
theorem full_skills_match_not_ten :
    evaluateSkillsMatch ["python"] ["python"] ["python"] = 41 / 5 ∧
      evaluateSkillsMatch ["python"] ["python"] ["python"] ≠ 10 := by
  have h : evaluateSkillsMatch ["python"] ["python"] ["python"] = 41 / 5 := by
    with_unfolding_all decide
  refine ⟨h, ?_⟩
  rw [h]
  norm_num

/-- C2, amended: the skills evaluator computes
`round(min(10, 8·required_ratio + 0.2·preferred_ratio), 2)`, so a
candidate covering a duplicate-free non-empty required list and a
duplicate-free non-empty preferred list in full scores exactly
8.2 (= 8 + 0.2, under the clamp), not 10. -/
theorem full_skills_match_scores_eight_point_two (cs rs ps : List String)
    (hrne : rs ≠ []) (hpne : ps ≠ []) (hrnd : rs.Nodup) (hpnd : ps.Nodup)
    (hrsub : ∀ s ∈ rs, s ∈ cs) (hpsub : ∀ s ∈ ps, s ∈ cs) :
    evaluateSkillsMatch cs rs ps = 41 / 5 := by
  unfold evaluateSkillsMatch
  rw [if_neg (by simpa [List.isEmpty_iff] using hrne)]
  have hic : ∀ (l : List String), l.Nodup → (∀ s ∈ l, s ∈ cs) → (interCount cs l : ℚ) = l.length := by
    intro l hnd hsub
    unfold interCount
    rw [List.dedup_eq_self.mpr hnd, List.filter_eq_self.mpr]
    intro a ha
    simpa using hsub a ha
  have hrlen : ((rs.length : ℚ)) ≠ 0 := by
    have : 0 < rs.length := List.length_pos.mpr hrne
    positivity
  have hplen : ((ps.length : ℚ)) ≠ 0 := by
    have : 0 < ps.length := List.length_pos.mpr hpne
    positivity
  rw [if_neg (by simpa [List.isEmpty_iff] using hpne)]
  rw [hic rs hrnd hrsub, hic ps hpnd hpsub]
  rw [div_self hrlen, div_self hplen]
  norm_num [pyMin, round2]

/-- Witness for C2 at a concrete full-match input. -/
theorem full_skills_match_witness :
    evaluateSkillsMatch ["python", "aws"] ["python"] ["aws"] = 41 / 5 :=
  full_skills_match_scores_eight_point_two ["python", "aws"] ["python"] ["aws"]
    (by decide) (by decide) (by decide) (by decide) (by decide) (by decide)

/-- C3, counterexample: the claim says that with a 7.0 threshold and five
scored candidates [9, 8, 7, 6, 5] exactly three candidates appear in the
final ranked output, but `run_job_pipeline` applies no score threshold:
all five candidates appear (sorted descending). -/
theorem ranked_output_keeps_all_five :
    ((runJobPipeline emptyJob (.ok fiveCandidates) (fun l => .ok l) fiveScoreFn
        (fun _ => .ok "m")).topCandidates.map (fun m => m.scored.fit) = [9, 8, 7, 6, 5]) ∧
      (runJobPipeline emptyJob (.ok fiveCandidates) (fun l => .ok l) fiveScoreFn
        (fun _ => .ok "m")).topCandidates.length ≠ 3 := by
  with_unfolding_all decide

/-- C3, amended: after scoring, `run_job_pipeline` sorts the scored
candidates descending by `fit_score` (a permutation, no filtering) and
truncates to the top 10; with five candidates scored [9, 8, 7, 6, 5] all
five appear in the final ranked output, in descending order. -/
theorem ranked_output_sorted_truncated_unfiltered :
    (∀ l : List Scored,
        ((sortDesc Scored.fit l).Perm l) ∧
        (rankStage l).Pairwise (fun a b => b.fit ≤ a.fit) ∧
        (rankStage l).length = min 10 l.length) ∧
      ((runJobPipeline emptyJob (.ok fiveCandidates) (fun l => .ok l) fiveScoreFn
        (fun _ => .ok "mm")).topCandidates.map (fun m => m.scored.fit) = [9, 8, 7, 6, 5]) := by
  constructor
  · intro l
    refine ⟨sortDesc_perm Scored.fit l, ?_, ?_⟩
    · exact (sortDesc_pairwise Scored.fit l).sublist (List.take_sublist 10 _)
    · unfold rankStage
      rw [List.length_take, (sortDesc_perm Scored.fit l).length_eq]
  · with_unfolding_all decide

/-- C4, counterexample: the claim says only a search failure can make
`success` false, but a run whose search succeeds and whose enrichment
raises ends with `success = false` (the enrichment error string lands in
the error list and `success` is `errors == []`). -/
theorem enrichment_failure_flips_success :
    (runJobPipeline emptyJob (.ok [emptyCandidate]) (fun _ => .error "x")
      (fun _ => .ok (5, 1)) (fun _ => .ok "m")).success = false := by
  with_unfolding_all decide

/-- C4, amended: the `success` flag of `run_job_pipeline` is true exactly
when neither the search call nor the enrichment call raised; per-candidate
scoring and messaging failures never flip it (the scoring and messaging
collaborators do not occur in the right-hand side), but an enrichment
failure does — and a search failure records an error and continues with an
empty candidate list rather than aborting. -/
theorem pipeline_success_iff_search_and_enrich_ok (j : Job)
    (sr : Except String (List Candidate))
    (ef : List Candidate → Except String (List Candidate))
    (sf : Candidate → Except String (ℚ × ℚ))
    (mf : Candidate → Except String String) :
    (runJobPipeline j sr ef sf mf).success =
      (exceptOk sr && exceptOk (ef (searchOutput sr))) := by
  unfold runJobPipeline searchOutput exceptOk
  cases sr with
  | ok cs =>
      cases hef : ef cs with
      | ok l => simp [hef]
      | error e => simp [hef]
  | error e =>
      cases hef : ef [] with
      | ok l => simp [hef]
      | error e2 => simp [hef]

/-- C5: every candidate handed to the scoring stage survives it in order
(the scored list projects back to the input list), and a candidate whose
`score_profiles` call raises is kept with the documented defaults
`fit_score = 5.0` and `confidence = 0.5`; accordingly the pipeline's
after-scoring count equals the enriched-candidate count. -/
theorem scoring_failure_default_and_kept
    (sf : Candidate → Except String (ℚ × ℚ)) (cs : List Candidate) :
    ((scoreStage sf cs).map Scored.cand = cs) ∧
    ((scoreStage sf cs).length = cs.length) ∧
    (∀ c ∈ cs, ∀ e, sf c = .error e → (⟨c, 5, 1/2⟩ : Scored) ∈ scoreStage sf cs) ∧
    (∀ (j : Job) (mf : Candidate → Except String String),
      (runJobPipeline j (.ok cs) (fun l => .ok l) sf mf).scoredCount = cs.length) := by
  refine ⟨?_, ?_, ?_, ?_⟩
  · unfold scoreStage
    rw [List.map_map]
    have hpt : ∀ a ∈ cs, (Scored.cand ∘ applyScore sf) a = id a := by
      intro a _
      show (applyScore sf a).cand = a
      unfold applyScore
      split
      · rfl
      · rfl
    rw [List.map_congr_left hpt, List.map_id]
  · unfold scoreStage
    exact List.length_map _ _
  · intro c hc e he
    unfold scoreStage
    apply List.mem_map.mpr
    refine ⟨c, hc, ?_⟩
    unfold applyScore
    rw [he]
  · intro j mf
    unfold runJobPipeline scoreStage
    simp

/-- Witness for C5: a scoring collaborator that raises on every candidate
still returns the single input candidate, carrying the defaults. -/
theorem scoring_failure_default_and_kept_witness :
    ((scoreStage alwaysFailScore [emptyCandidate]).map Scored.cand = [emptyCandidate]) ∧
    ((scoreStage alwaysFailScore [emptyCandidate]).length = 1) ∧
    ((⟨emptyCandidate, 5, 1/2⟩ : Scored) ∈ scoreStage alwaysFailScore [emptyCandidate]) ∧
    ((runJobPipeline emptyJob (.ok [emptyCandidate]) (fun l => .ok l) alwaysFailScore
      (fun _ => .ok "m")).scoredCount = 1) := by
  obtain ⟨h1, h2, h3, h4⟩ := scoring_failure_default_and_kept alwaysFailScore [emptyCandidate]
  exact ⟨h1, h2, h3 emptyCandidate (by simp) "boom" rfl, h4 emptyJob (fun _ => .ok "m")⟩

/-- C6: both weight tables of the scoring core sum to exactly 1: the
six-criterion aggregation weights (0.30, 0.25, 0.15, 0.15, 0.10, 0.05)
and the seven confidence factors (0.2, 0.2, 0.15, 0.15, 0.1, 0.1, 0.1). -/
theorem weight_tables_sum_to_one :
    ((scoringWeights.map Prod.snd).sum = 1) ∧
      ((confidenceFactors.map Prod.snd).sum = 1) := by
  constructor
  · norm_num [scoringWeights]
  · norm_num [confidenceFactors]

/-- C7, counterexample: the claim says each degree string is scored by the
longest/most-specific substring match against the degree table, but on the
degree `"High School Diploma"` the longest matching key is `"high school"`
(score 3.0) while the code scores 8.0 — its descending scan stops at the
earlier, shorter key `"ma"`, which occurs inside `"diploma"`; so the code
does not implement the longest-match rule. -/
theorem education_not_longest_match :
    educationByLongest [⟨"", "High School Diploma"⟩] = 3 ∧
      evaluateEducation [⟨"", "High School Diploma"⟩] = 8 ∧
      evaluateEducation [⟨"", "High School Diploma"⟩] ≠
        educationByLongest [⟨"", "High School Diploma"⟩] := by
  refine ⟨?_, ?_, ?_⟩
  · with_unfolding_all decide
  · with_unfolding_all decide
  · with_unfolding_all decide

/-- C7, amended: the education evaluator scores each degree string by the
first entry of the fixed degree-level table, scanned in its descending
order, whose key occurs in the lowercased string — equivalently the
highest-level matching key, not the longest one — then takes the maximum
over all education entries, adds a flat +1.0 bonus if any listed school
case-insensitively substring-matches the fixed prestige list, clamps the
result to 10, and returns the neutral score 5.0 when there are no
education entries. -/
theorem evaluateEducation_eq_by_level (edu : List EduEntry) :
    evaluateEducation edu = educationByLevel edu := by
  unfold evaluateEducation educationByLevel
  split
  · rfl
  · rw [eduFold_eq edu 0 le_rfl]

/-- C8: the confidence value produced by `score_profiles` depends on the
candidate alone — two runs against different jobs yield the same
confidence. -/
theorem confidence_independent_of_job (c : Candidate) (j1 j2 : Job) :
    (scoreProfiles c j1).confidence = (scoreProfiles c j2).confidence := rfl

/-- C9: through `score_profiles` the preferred-skills bonus is always 0:
only the job's `skills` list is passed to the skills evaluator, so the
skills-match score is `round(min(10, 8·|∩|/|job_skills|), 2)` for a
non-empty job skills list, and 5.0 when it is empty. -/
theorem scoreProfiles_skills_no_preferred_bonus (c : Candidate) (j : Job) :
    (scoreProfiles c j).scores.skills_match =
      (if j.skills.isEmpty then (5 : ℚ)
       else round2 (pyMin 10 (8 * ((interCount c.skills j.skills : ℚ) / (j.skills.length : ℚ))))) := by
  show evaluateSkillsMatch c.skills j.skills [] = _
  unfold evaluateSkillsMatch
  split
  · rfl
  · show round2 (pyMin 10 ((interCount c.skills j.skills : ℚ) / (j.skills.length : ℚ) * 8 + 0)) = _
    congr 1
    congr 1
    ring

/-- C10: `score_profiles` feeds the `companies` field (not `experience`)
to the experience-relevance and company-prestige evaluators, while
profile completeness and the confidence estimator read `experience`; a
candidate with experience entries but an empty `companies` list gets the
no-data experience score 1.0 and the neutral prestige 5.0 even though
both presence checks count experience as present. -/
theorem companies_field_drives_experience_scores (c : Candidate) (j : Job)
    (hcomp : c.companies = []) (hexp : c.experience ≠ []) :
    (scoreProfiles c j).scores.experience_relevance = 1 ∧
    (scoreProfiles c j).scores.company_prestige = 5 ∧
    hasDataForFactor c "has_experience" = true ∧
    requiredFieldPresent c "experience" = true := by
  have hne : c.experience.isEmpty = false := by
    cases hE : c.experience with
    | nil => exact absurd hE hexp
    | cons a t => rfl
  refine ⟨?_, ?_, ?_, ?_⟩
  · show assessExperienceRelevance c.companies j.title j.required_years = 1
    rw [hcomp]
    rfl
  · show assessCompanyPrestige c.companies = 5
    rw [hcomp]
    rfl
  · show (!c.experience.isEmpty) = true
    rw [hne]
    rfl
  · show (!c.experience.isEmpty) = true
    rw [hne]
    rfl

/-- Witness for C10 at a candidate whose only populated field is one
experience entry. -/
theorem companies_field_drives_experience_scores_witness :
    (scoreProfiles experienceOnlyCandidate emptyJob).scores.experience_relevance = 1 ∧
    (scoreProfiles experienceOnlyCandidate emptyJob).scores.company_prestige = 5 ∧
    hasDataForFactor experienceOnlyCandidate "has_experience" = true ∧
    requiredFieldPresent experienceOnlyCandidate "experience" = true :=
  companies_field_drives_experience_scores experienceOnlyCandidate emptyJob rfl
    (by with_unfolding_all decide)

end LinkedinSourcing
